import Mathlib

/-!
Shallow embedding of the OVS network strategy of `socketplane/libcontainer`
(`network/ovs.go` and the CLI variant of the same strategy): the OVSDB
three-operation provisioning transaction and its reply validator
(`addInternalPort`), the port-name generator wrapper
(`createOvsInternalPort`), the mirrored table cache (`populateCache`), and
the device-step sequences of `Ovs.Create` and `Ovs.Initialize`.

External effects (the OVSDB server's reply, the success or failure of each
netlink-style device operation, the random source, the result of connecting)
are passed in as explicit oracle inputs; everything else is translated
directly from the Go source.
-/

namespace OvsNet

/-! ## OVSDB values, operations and operation results (libovsdb interface) -/

/-- A field value as this client uses them: a string, a named-UUID reference,
or a set of values (mirrors the `interface{}` payloads built in
`addInternalPort`). -/
inductive OvsValue where
  | str (s : String)
  | uuidRef (name : String)
  | set (elems : List OvsValue)

/-- One operation of a `transact` call (the fields of `libovsdb.Operation`
that `addInternalPort` populates). -/
structure Operation where
  op : String
  table : String
  row : List (String × OvsValue) := []
  uuidName : String := ""
  mutations : List (String × String × OvsValue) := []
  whereCond : List (String × String × OvsValue) := []

/-- One entry of a `transact` reply (the fields of
`libovsdb.OperationResult` that the validator and the success path read,
plus `count`, the affected-row count the mutate reply carries). -/
structure OperationResult where
  count : Nat := 0
  error : String := ""
  details : String := ""
  uuid : String := ""
deriving DecidableEq

/-- The `Interface` insert of `addInternalPort`: row
`{name: portName, type: "internal"}`, temporary name `"intf"`. -/
def insertIntfOp (portName : String) : Operation :=
  { op := "insert", table := "Interface",
    row := [("name", OvsValue.str portName), ("type", OvsValue.str "internal")],
    uuidName := "intf" }

/-- The `Port` insert of `addInternalPort`: row
`{name: portName, interfaces: UUID("intf")}`, temporary name `"port"`. -/
def insertPortOp (portName : String) : Operation :=
  { op := "insert", table := "Port",
    row := [("name", OvsValue.str portName),
            ("interfaces", OvsValue.uuidRef "intf")],
    uuidName := "port" }

/-- The `Bridge` mutate of `addInternalPort`: insert the set holding
`UUID("port")` into field `ports` of the row whose `name` equals
`bridgeName`. -/
def mutateBridgeOp (bridgeName : String) : Operation :=
  { op := "mutate", table := "Bridge",
    mutations := [("ports", "insert", OvsValue.set [OvsValue.uuidRef "port"])],
    whereCond := [("name", "==", OvsValue.str bridgeName)] }

/-- The three operations `addInternalPort` submits, in order. -/
def addInternalPortOps (bridgeName portName : String) : List Operation :=
  [insertIntfOp portName, insertPortOp portName, mutateBridgeOp bridgeName]

/-- What `addInternalPort` observably does with a reply: whether the
short-reply warning was printed, whether the validation loop left `ok`
true, and — on the success path — the `reply[1].UUID.GoUuid` it prints
(`none` models the out-of-range panic when the reply has fewer than two
entries). -/
structure TxOutcome where
  lengthWarning : Bool
  ok : Bool
  successUuid : Option String
deriving DecidableEq

/-- `addInternalPort` of `network/ovs.go`, with the server's reply to
`ovs.Transact` passed in: prints a warning when the reply is shorter than
the operation list (and nothing more — `ok` is untouched there); the loop
sets `ok` to false exactly when an entry carries a non-empty error, at any
index; on `ok` it reads `reply[1]`. -/
def addInternalPort (bridgeName portName : String)
    (reply : List OperationResult) : TxOutcome :=
  let operations := addInternalPortOps bridgeName portName
  let warn := reply.length < operations.length
  let ok := reply.foldl (fun acc o => if o.error ≠ "" then false else acc) true
  { lengthWarning := warn
    ok := ok
    successUuid := if ok then (reply.get? 1).map (fun o => o.uuid) else none }

/-! ## Name generation and `createOvsInternalPort` -/

/-- Modelled from the spec: `utils.GenerateRandomName` (the random name
generator, an external collaborator whose code is not part of these source
files) — "Generate a candidate port name from `namePrefix` plus a
fixed-length random suffix". The random source is an oracle `rand`; the
suffix takes exactly `size` of its characters. -/
def GenerateRandomName (prefix_ : String) (size : Nat) (rand : Nat → Char) : String :=
  prefix_ ++ String.mk ((List.range size).map rand)

/-- `createOvsInternalPort` of `network/ovs.go`: generate a name from the
prefix with a 7-character suffix, connect, and — when the connection
succeeded — run `addInternalPort`, whose outcome does not influence the
returned pair `(name1, err)`. The returned error is the connect error (the
`ovs, err := ovs_connect()` assignment writes the named result `err`);
the second component of the result records the transaction outcome that
was produced and dropped (`none` when no transaction ran). -/
def createOvsInternalPort (prefix_ bridge : String) (rand : Nat → Char)
    (connectErr : Option String) (reply : List OperationResult) :
    (String × Option String) × Option TxOutcome :=
  let name1 := GenerateRandomName prefix_ 7 rand
  match connectErr with
  | some e => ((name1, some e), none)
  | none => ((name1, none), some (addInternalPort bridge name1 reply))

/-- The CLI variant of `createOvsInternalPort` (the file with the
`ovs-vsctl` fallback): the ten-iteration loop generates a name, runs the
command, returns the wrapped error on failure, and otherwise breaks after
the first iteration. -/
def createOvsInternalPortCli (prefix_ bridge : String) (rand : Nat → Char)
    (cmdErr : Option String) : String × Option String :=
  let name1 := GenerateRandomName prefix_ 7 rand
  match cmdErr with
  | some e =>
      (name1, some ("create ovs port " ++ name1 ++ " on " ++ bridge ++
        " failed with " ++ e))
  | none => (name1, none)

/-! ## The mirrored table cache (`populateCache`) -/

/-- A mirrored row: the field map of `libovsdb.Row` (`Fields
map[string]interface{}`); the zero value (the empty list) is what
`reflect.DeepEqual(row.New, libovsdb.Row{})` compares against. -/
abbrev Row := List (String × String)

/-- One entry of `TableUpdate.Rows`: the old and new row values. -/
structure RowUpdate where
  old : Row := []
  new : Row := []
deriving DecidableEq

/-- `TableUpdate.Rows`: row identifier to `{old, new}` delta (a Go map,
its keys unique). -/
abbrev TableUpdate := List (String × RowUpdate)

/-- `TableUpdates.Updates`: table name to table update (a Go map, its keys
unique). -/
abbrev TableUpdates := List (String × TableUpdate)

/-- A sub-mapping of the cache: row identifier to row. -/
abbrev TableMap := String → Option Row

/-- The cache: table name to sub-mapping; `none` is a table the cache has
no entry for, `some` a present (possibly empty) sub-mapping — the
distinction `if _, ok := cache[table]; !ok` tests. -/
abbrev Cache := String → Option TableMap

/-- The sub-mapping `make(map[string]libovsdb.Row)` creates. -/
def emptyTableMap : TableMap := fun _ => none

/-- The body of the row loop of `populateCache`: when `row.New` is not the
empty row, `cache[table][uuid] = row.New`; otherwise
`delete(cache[table], uuid)`. -/
def applyRowUpdate (m : TableMap) (uuid : String) (ru : RowUpdate) : TableMap :=
  if ru.new ≠ ([] : Row) then
    fun k => if k = uuid then some ru.new else m k
  else
    fun k => if k = uuid then none else m k

/-- The row loop of `populateCache` over one table's delta. -/
def applyTableUpdate (m : TableMap) (tu : TableUpdate) : TableMap :=
  tu.foldl (fun m p => applyRowUpdate m p.1 p.2) m

/-- `populateCache` of `network/ovs.go`, with the mutated global cache made
an explicit argument and result: for each table of the update, ensure a
(possibly empty) sub-mapping exists, then apply the row deltas into it. -/
def populateCache (updates : TableUpdates) (cache : Cache) : Cache :=
  updates.foldl
    (fun c p =>
      let m := (c p.1).getD emptyTableMap
      fun t => if t = p.1 then some (applyTableUpdate m p.2) else c t)
    cache

/-- Reading one row of the cache: `cache[table][uuid]` (absent when the
table or the row is absent). -/
def cacheGet (c : Cache) (t r : String) : Option Row :=
  (c t).bind (fun m => m r)

/-! ## Device operations (`Ovs.Create` and `Ovs.Initialize`) -/

/-- The interface-control steps the strategy issues (external
collaborators: `SetMtu`, `InterfaceUp`, `SetInterfaceInNamespacePid`,
`InterfaceDown`, `ChangeInterfaceName`, `SetInterfaceMac`,
`SetInterfaceIp`, `SetDefaultGateway`), each carrying its arguments. -/
inductive DevOp where
  | setMtu (device : String) (mtu : Int)
  | interfaceUp (device : String)
  | setNsPid (device : String) (nspid : Int)
  | interfaceDown (device : String)
  | changeName (device newName : String)
  | setMac (device mac : String)
  | setIp (device ip : String)
  | setGateway (gateway device : String)
deriving DecidableEq

/-- The outcome oracle for device operations: `none` is success, `some e`
the step's error text. -/
abbrev DevEnv := DevOp → Option String

/-- The `Network` configuration fields the strategy reads. -/
structure Network where
  bridge : String := ""
  vethPrefix : String := ""
  mtu : Int := 0
  macAddress : String := ""
  address : String := ""
  ipv6Address : String := ""
  gateway : String := ""
  ipv6Gateway : String := ""
deriving DecidableEq

/-- The shared `NetworkState` field the strategy writes and reads. -/
structure NetworkState where
  ovsPort : String := ""
deriving DecidableEq

/-- Modelled from the spec: the "fixed canonical device name" the moved
port is renamed to (`defaultDevice`, declared outside these source
files; its concrete value plays no role in any claim). -/
def defaultDevice : String := "eth0"

/-- `Ovs.Create` of `network/ovs.go`: guard the configuration, create the
port, then set MTU, bring the device up and move it into the namespace,
each step fatal; only after all three does `networkState.OvsPort = name`
happen. Result: the device operations issued in order (a failed one
included, as its last element), the network state after the call, and the
returned error. -/
def ovsCreate (n : Network) (nspid : Int) (networkState : NetworkState)
    (env : DevEnv) (rand : Nat → Char) (connectErr : Option String)
    (reply : List OperationResult) :
    List DevOp × NetworkState × Option String :=
  if n.bridge = "" then ([], networkState, some "bridge is not specified")
  else if n.vethPrefix = "" then
    ([], networkState, some "veth prefix is not specified")
  else
    match (createOvsInternalPort n.vethPrefix n.bridge rand connectErr reply).1 with
    | (_, some e) => ([], networkState, some e)
    | (name, none) =>
      match env (DevOp.setMtu name n.mtu) with
      | some e => ([DevOp.setMtu name n.mtu], networkState, some e)
      | none =>
        match env (DevOp.interfaceUp name) with
        | some e =>
            ([DevOp.setMtu name n.mtu, DevOp.interfaceUp name],
             networkState, some e)
        | none =>
          match env (DevOp.setNsPid name nspid) with
          | some e =>
              ([DevOp.setMtu name n.mtu, DevOp.interfaceUp name,
                DevOp.setNsPid name nspid], networkState, some e)
          | none =>
              ([DevOp.setMtu name n.mtu, DevOp.interfaceUp name,
                DevOp.setNsPid name nspid],
               { ovsPort := name }, none)

/-- The error text `Ovs.Initialize` wraps a failed step's error `e` in
(the `fmt.Errorf` format strings of the Go source, verbatim). -/
def stepMsg : DevOp → String → String
  | DevOp.interfaceDown dev, e => "interface down " ++ dev ++ " " ++ e
  | DevOp.changeName dev newName, e =>
      "change " ++ dev ++ " to " ++ newName ++ " " ++ e
  | DevOp.setMac dev _, e => "set " ++ dev ++ " mac " ++ e
  | DevOp.setIp dev _, e => "set " ++ dev ++ " ip " ++ e
  | DevOp.setMtu dev mtu, e =>
      "set " ++ dev ++ " mtu to " ++ toString mtu ++ " " ++ e
  | DevOp.interfaceUp dev, e => dev ++ " up " ++ e
  | DevOp.setGateway gw dev, e =>
      "set gateway to " ++ gw ++ " on device " ++ dev ++ " failed with " ++ e
  | DevOp.setNsPid dev _, e => "set " ++ dev ++ " in namespace " ++ e

/-- The message of the second `SetInterfaceIp` call (the IPv6 address) and
of the second `SetDefaultGateway` call (the IPv6 gateway) differ from
`stepMsg`'s: `"set %s ipv6 %s"` and
`"set gateway for ipv6 to %s on device %s failed with %s"`. -/
def stepMsgV6 : DevOp → String → String
  | DevOp.setIp dev _, e => "set " ++ dev ++ " ipv6 " ++ e
  | DevOp.setGateway gw dev, e =>
      "set gateway for ipv6 to " ++ gw ++ " on device " ++ dev ++
        " failed with " ++ e
  | op, e => stepMsg op e

/-- One step of `Ovs.Initialize`: the device operation and the wrapper its
failure's error goes through. -/
abbrev InitStep := DevOp × (String → String)

/-- The step list of `Ovs.Initialize`, read off the source in order: down,
rename to the canonical name, MAC when configured, primary address, IPv6
address when configured, MTU, up, gateway when configured, IPv6 gateway
when configured. -/
def initSteps (config : Network) (ovsPort : String) : List InitStep :=
  [(DevOp.interfaceDown ovsPort, stepMsg (DevOp.interfaceDown ovsPort)),
   (DevOp.changeName ovsPort defaultDevice,
    stepMsg (DevOp.changeName ovsPort defaultDevice))] ++
  (if config.macAddress ≠ "" then
    [(DevOp.setMac defaultDevice config.macAddress,
      stepMsg (DevOp.setMac defaultDevice config.macAddress))]
   else []) ++
  [(DevOp.setIp defaultDevice config.address,
    stepMsg (DevOp.setIp defaultDevice config.address))] ++
  (if config.ipv6Address ≠ "" then
    [(DevOp.setIp defaultDevice config.ipv6Address,
      stepMsgV6 (DevOp.setIp defaultDevice config.ipv6Address))]
   else []) ++
  [(DevOp.setMtu defaultDevice config.mtu,
    stepMsg (DevOp.setMtu defaultDevice config.mtu)),
   (DevOp.interfaceUp defaultDevice,
    stepMsg (DevOp.interfaceUp defaultDevice))] ++
  (if config.gateway ≠ "" then
    [(DevOp.setGateway config.gateway defaultDevice,
      stepMsg (DevOp.setGateway config.gateway defaultDevice))]
   else []) ++
  (if config.ipv6Gateway ≠ "" then
    [(DevOp.setGateway config.ipv6Gateway defaultDevice,
      stepMsgV6 (DevOp.setGateway config.ipv6Gateway defaultDevice))]
   else [])

/-- Run a fail-fast step sequence: each `if err := ...; err != nil { return
wrapped }` of the Go source. Result: the operations issued in order (a
failed one included, last) and the wrapped error of the first failure. -/
def runSteps (env : DevEnv) : List InitStep → List DevOp × Option String
  | [] => ([], none)
  | (op, wrap) :: rest =>
    match env op with
    | some e => ([op], some (wrap e))
    | none =>
      let (trace, res) := runSteps env rest
      (op :: trace, res)

/-- `Ovs.Initialize` of `network/ovs.go`: guard the recorded port name,
then run the step sequence fail-fast. -/
def ovsInitialize (config : Network) (networkState : NetworkState)
    (env : DevEnv) : List DevOp × Option String :=
  if networkState.ovsPort = "" then ([], some "ovsPort is not specified")
  else runSteps env (initSteps config networkState.ovsPort)

/-! ## Characterizing the cache update -/

/-- The value one row delta leaves at its row identifier: the new row when
it is non-empty, absence otherwise. -/
def rowVal (ru : RowUpdate) : Option Row :=
  if ru.new ≠ ([] : Row) then some ru.new else none

/-- The last delta a table update holds for a row identifier (the one that
wins under left-to-right application). -/
def lastRowOp : TableUpdate → String → Option RowUpdate
  | [], _ => none
  | (u, ru) :: rest, r =>
    match lastRowOp rest r with
    | some x => some x
    | none => if u = r then some ru else none

/-- The table update a batch holds for a table name (first match; with the
Go map's unique keys, the only one). -/
def lookupTU : TableUpdates → String → Option TableUpdate
  | [], _ => none
  | (t', tu) :: rest, t => if t' = t then some tu else lookupTU rest t

/-- Stated from the spec: one table's merged delta, "U2's per-row entries
override U1's entries for the same (table, rowId)". -/
def mergeTU (tu1 tu2 : TableUpdate) : TableUpdate :=
  tu1.filter (fun p => decide (p.1 ∉ tu2.map Prod.fst)) ++ tu2

/-- Stated from the spec: "the single update formed by U2's per-row
overrides layered onto U1" — for a table both mention, the merged delta;
for a table only one mentions, that one's delta. -/
def mergeUpdates (U1 U2 : TableUpdates) : TableUpdates :=
  U1.map (fun p =>
    (p.1,
      match lookupTU U2 p.1 with
      | some tu2 => mergeTU p.2 tu2
      | none => p.2)) ++
  U2.filter (fun p => decide (p.1 ∉ U1.map Prod.fst))

/-- Whether `needle` starts `hay` (character-list comparison). -/
def charsStart : List Char → List Char → Bool
  | [], _ => true
  | _ :: _, [] => false
  | a :: as, b :: bs => a = b && charsStart as bs

/-- Whether `needle` occurs anywhere inside `hay`: used to state that an
error message does or does not name a configured value. -/
def strContains (hay needle : String) : Bool :=
  (List.range (hay.toList.length + 1)).any
    (fun i => charsStart needle.toList (hay.toList.drop i))

theorem applyRowUpdate_apply (m : TableMap) (u : String) (ru : RowUpdate)
    (k : String) :
    applyRowUpdate m u ru k = if k = u then rowVal ru else m k := by
  unfold applyRowUpdate rowVal
  by_cases h : ru.new = ([] : Row) <;> simp [h]

theorem applyTableUpdate_apply (tu : TableUpdate) :
    ∀ (m : TableMap) (r : String),
      applyTableUpdate m tu r =
        match lastRowOp tu r with
        | some ru => rowVal ru
        | none => m r := by
  induction tu with
  | nil => intro m r; rfl
  | cons p rest ih =>
    intro m r
    obtain ⟨u, ru⟩ := p
    show applyTableUpdate (applyRowUpdate m u ru) rest r = _
    rw [ih]
    cases h : lastRowOp rest r with
    | some x => simp [lastRowOp, h]
    | none =>
      rw [applyRowUpdate_apply]
      by_cases hu : u = r
      · subst hu; simp [lastRowOp, h]
      · have hr : ¬r = u := fun hr => hu hr.symm
        simp [lastRowOp, h, hu, hr]

theorem lastRowOp_eq_none (tu : TableUpdate) (r : String) :
    lastRowOp tu r = none ↔ r ∉ tu.map Prod.fst := by
  induction tu with
  | nil => simp [lastRowOp]
  | cons p rest ih =>
    obtain ⟨u, ru⟩ := p
    constructor
    · intro h
      simp only [lastRowOp] at h
      cases hr : lastRowOp rest r with
      | some x => rw [hr] at h; exact absurd h (by simp)
      | none =>
        rw [hr] at h
        simp only [List.map_cons, List.mem_cons]
        rintro (rfl | hmem)
        · simp at h
        · exact (ih.mp hr) hmem
    · intro h
      simp only [List.map_cons, List.mem_cons, not_or] at h
      have hu : ¬u = r := fun he => h.1 he.symm
      simp [lastRowOp, ih.mpr h.2, hu]

theorem lastRowOp_mem (tu : TableUpdate) (r : String) (ru : RowUpdate)
    (hmem : (r, ru) ∈ tu) (hnd : (tu.map Prod.fst).Nodup) :
    lastRowOp tu r = some ru := by
  induction tu with
  | nil => cases hmem
  | cons p rest ih =>
    obtain ⟨u, ru'⟩ := p
    simp only [List.map_cons, List.nodup_cons] at hnd
    rcases List.mem_cons.mp hmem with h | h
    · cases h
      have : r ∉ rest.map Prod.fst := hnd.1
      simp [lastRowOp, (lastRowOp_eq_none rest r).mpr this]
    · have hr : r ∈ rest.map Prod.fst :=
        List.mem_map.mpr ⟨(r, ru), h, rfl⟩
      simp [lastRowOp, ih h hnd.2]

theorem lookupTU_eq_none (U : TableUpdates) (t : String) :
    lookupTU U t = none ↔ t ∉ U.map Prod.fst := by
  induction U with
  | nil => simp [lookupTU]
  | cons p rest ih =>
    obtain ⟨t', tu⟩ := p
    by_cases h : t' = t
    · subst h; simp [lookupTU]
    · have h' : ¬t = t' := fun he => h he.symm
      simp [lookupTU, h, ih, h']

theorem lookupTU_mem (U : TableUpdates) (t : String) (tu : TableUpdate)
    (hmem : (t, tu) ∈ U) (hnd : (U.map Prod.fst).Nodup) :
    lookupTU U t = some tu := by
  induction U with
  | nil => cases hmem
  | cons p rest ih =>
    obtain ⟨t', tu'⟩ := p
    simp only [List.map_cons, List.nodup_cons] at hnd
    rcases List.mem_cons.mp hmem with h | h
    · cases h; simp [lookupTU]
    · have ht : t ∈ rest.map Prod.fst :=
        List.mem_map.mpr ⟨(t, tu), h, rfl⟩
      have hne : t' ≠ t := fun he => hnd.1 (he ▸ ht)
      simp [lookupTU, hne, ih h hnd.2]

theorem lookupTU_some_mem (U : TableUpdates) (t : String) (tu : TableUpdate)
    (h : lookupTU U t = some tu) : (t, tu) ∈ U := by
  induction U with
  | nil => cases h
  | cons p rest ih =>
    obtain ⟨t', tu'⟩ := p
    by_cases he : t' = t
    · subst he
      simp only [lookupTU, if_true, eq_self_iff_true, Option.some.injEq] at h
      subst h
      exact List.mem_cons_self _ _
    · simp only [lookupTU, if_neg he] at h
      exact List.mem_cons_of_mem _ (ih h)

theorem populateCache_apply (U : TableUpdates) :
    ∀ (c : Cache) (t : String), (U.map Prod.fst).Nodup →
      populateCache U c t =
        match lookupTU U t with
        | some tu => some (applyTableUpdate ((c t).getD emptyTableMap) tu)
        | none => c t := by
  induction U with
  | nil => intro c t _; rfl
  | cons p rest ih =>
    intro c t hnd
    obtain ⟨t', tu'⟩ := p
    simp only [List.map_cons, List.nodup_cons] at hnd
    show populateCache rest
      (fun x => if x = t' then
        some (applyTableUpdate ((c t').getD emptyTableMap) tu') else c x) t = _
    rw [ih _ t hnd.2]
    cases hl : lookupTU rest t with
    | some tu =>
      have ht : t ∈ rest.map Prod.fst :=
        List.mem_map.mpr ⟨(t, tu), lookupTU_some_mem rest t tu hl, rfl⟩
      have hne : t ≠ t' := fun he => hnd.1 (he ▸ ht)
      have hne' : t' ≠ t := fun he => hne he.symm
      simp [lookupTU, hne, hne', hl]
    | none =>
      by_cases he : t' = t
      · subst he; simp [lookupTU]
      · have he' : ¬t = t' := fun hr => he hr.symm
        simp [lookupTU, he, hl, he']

/-! ## Merging two update batches (the spec's layered update) -/

theorem lastRowOp_append (A B : TableUpdate) (r : String) :
    lastRowOp (A ++ B) r =
      match lastRowOp B r with
      | some x => some x
      | none => lastRowOp A r := by
  induction A with
  | nil =>
    simp only [List.nil_append]
    cases h : lastRowOp B r <;> simp [h, lastRowOp]
  | cons p rest ih =>
    obtain ⟨u, ru⟩ := p
    show lastRowOp ((u, ru) :: (rest ++ B)) r = _
    simp only [lastRowOp, ih]
    cases lastRowOp B r <;> cases lastRowOp rest r <;> simp

theorem lastRowOp_filter (tu : TableUpdate) (ex : List String) (r : String)
    (hr : r ∉ ex) :
    lastRowOp (tu.filter (fun p => decide (p.1 ∉ ex))) r = lastRowOp tu r := by
  induction tu with
  | nil => rfl
  | cons p rest ih =>
    obtain ⟨u, ru⟩ := p
    by_cases hk : u ∈ ex
    · have hu : ¬u = r := fun he => hr (he ▸ hk)
      have : decide (u ∉ ex) = false := by simp [hk]
      simp only [List.filter_cons, this, if_false, Bool.false_eq_true, ih,
        lastRowOp, hu]
      cases lastRowOp rest r <;> simp [hu]
    · have : decide (u ∉ ex) = true := by simp [hk]
      simp only [List.filter_cons, this, if_true, lastRowOp, ih]

theorem lastRowOp_mergeTU (tu1 tu2 : TableUpdate) (r : String) :
    lastRowOp (mergeTU tu1 tu2) r =
      match lastRowOp tu2 r with
      | some x => some x
      | none => lastRowOp tu1 r := by
  unfold mergeTU
  rw [lastRowOp_append]
  cases h : lastRowOp tu2 r with
  | some x => rfl
  | none =>
    have hr : r ∉ tu2.map Prod.fst := (lastRowOp_eq_none tu2 r).mp h
    exact lastRowOp_filter tu1 (tu2.map Prod.fst) r hr

theorem applyTableUpdate_mergeTU (m : TableMap) (tu1 tu2 : TableUpdate) :
    applyTableUpdate (applyTableUpdate m tu1) tu2 =
      applyTableUpdate m (mergeTU tu1 tu2) := by
  funext r
  rw [applyTableUpdate_apply, applyTableUpdate_apply,
    applyTableUpdate_apply, lastRowOp_mergeTU]
  cases lastRowOp tu2 r <;> cases lastRowOp tu1 r <;> simp

theorem applyTableUpdate_idem (m : TableMap) (tu : TableUpdate) :
    applyTableUpdate (applyTableUpdate m tu) tu = applyTableUpdate m tu := by
  funext r
  rw [applyTableUpdate_apply, applyTableUpdate_apply]
  cases h : lastRowOp tu r <;> rfl

theorem lookupTU_append (A B : TableUpdates) (t : String) :
    lookupTU (A ++ B) t =
      match lookupTU A t with
      | some x => some x
      | none => lookupTU B t := by
  induction A with
  | nil => rfl
  | cons p rest ih =>
    obtain ⟨t', tu⟩ := p
    by_cases h : t' = t
    · subst h; simp [lookupTU]
    · show lookupTU ((t', tu) :: (rest ++ B)) t = _
      simp only [lookupTU, if_neg h, ih]

theorem lookupTU_mergeLeft (U1 U2 : TableUpdates) (t : String) :
    lookupTU (U1.map (fun p =>
      (p.1,
        match lookupTU U2 p.1 with
        | some tu2 => mergeTU p.2 tu2
        | none => p.2))) t =
      match lookupTU U1 t with
      | some tu1 =>
          some (match lookupTU U2 t with
                | some tu2 => mergeTU tu1 tu2
                | none => tu1)
      | none => none := by
  induction U1 with
  | nil => rfl
  | cons p rest ih =>
    obtain ⟨t', tu'⟩ := p
    by_cases h : t' = t
    · subst h; simp [lookupTU]
    · simp only [List.map_cons, lookupTU, if_neg h, ih]

theorem lookupTU_filter_out (U1 U2 : TableUpdates) (t : String)
    (ht : t ∈ U1.map Prod.fst) :
    lookupTU (U2.filter (fun p => decide (p.1 ∉ U1.map Prod.fst))) t = none := by
  induction U2 with
  | nil => rfl
  | cons p rest ih =>
    obtain ⟨t', tu'⟩ := p
    by_cases hk : t' ∈ U1.map Prod.fst
    · have : decide (t' ∉ U1.map Prod.fst) = false := by simp [hk]
      simp only [List.filter_cons, this, if_false, Bool.false_eq_true, ih]
    · have hne : ¬t' = t := fun he => hk (he ▸ ht)
      have : decide (t' ∉ U1.map Prod.fst) = true := by simp [hk]
      simp only [List.filter_cons, this, if_true, lookupTU, if_neg hne, ih]

theorem lookupTU_filter_in (U1 U2 : TableUpdates) (t : String)
    (ht : t ∉ U1.map Prod.fst) :
    lookupTU (U2.filter (fun p => decide (p.1 ∉ U1.map Prod.fst))) t =
      lookupTU U2 t := by
  induction U2 with
  | nil => rfl
  | cons p rest ih =>
    obtain ⟨t', tu'⟩ := p
    by_cases hk : t' ∈ U1.map Prod.fst
    · have hne : ¬t' = t := fun he => ht (he ▸ hk)
      have : decide (t' ∉ U1.map Prod.fst) = false := by simp [hk]
      simp only [List.filter_cons, this, if_false, Bool.false_eq_true, ih,
        lookupTU, if_neg hne]
    · have : decide (t' ∉ U1.map Prod.fst) = true := by simp [hk]
      simp only [List.filter_cons, this, if_true, lookupTU, ih]

theorem lookupTU_mergeUpdates (U1 U2 : TableUpdates) (t : String) :
    lookupTU (mergeUpdates U1 U2) t =
      match lookupTU U1 t, lookupTU U2 t with
      | some tu1, some tu2 => some (mergeTU tu1 tu2)
      | some tu1, none => some tu1
      | none, o => o := by
  unfold mergeUpdates
  rw [lookupTU_append, lookupTU_mergeLeft]
  cases hl1 : lookupTU U1 t with
  | some tu1 => cases lookupTU U2 t <;> rfl
  | none =>
    have ht : t ∉ U1.map Prod.fst := (lookupTU_eq_none U1 t).mp hl1
    rw [lookupTU_filter_in U1 U2 t ht]

theorem mergeUpdates_keys_nodup (U1 U2 : TableUpdates)
    (h1 : (U1.map Prod.fst).Nodup) (h2 : (U2.map Prod.fst).Nodup) :
    ((mergeUpdates U1 U2).map Prod.fst).Nodup := by
  unfold mergeUpdates
  rw [List.map_append, List.nodup_append]
  refine ⟨?_, ?_, ?_⟩
  · rw [List.map_map]
    exact h1
  · exact h2.sublist ((List.filter_sublist U2).map Prod.fst)
  · intro a ha hb
    rw [List.map_map] at ha
    rcases List.mem_map.mp hb with ⟨p, hp, rfl⟩
    have := List.of_mem_filter hp
    rw [decide_eq_true_iff] at this
    exact this ha

/-! ## The reply validator -/

theorem validateFold_eq_true (reply : List OperationResult) :
    ∀ acc : Bool,
      reply.foldl (fun acc o => if o.error ≠ "" then false else acc) acc = true ↔
        (acc = true ∧ ∀ o ∈ reply, o.error = "") := by
  induction reply with
  | nil => intro acc; simp [List.foldl]
  | cons o rest ih =>
    intro acc
    show List.foldl _ (if o.error ≠ "" then false else acc) rest = true ↔ _
    by_cases h : o.error = ""
    · rw [if_neg (fun hn => hn h), ih acc]
      simp [List.forall_mem_cons, h]
    · rw [if_pos h, ih false]
      simp [List.forall_mem_cons, h]

/-! ## Cache claims -/

/-- C4: applying an update batch ensures a sub-mapping for every mentioned
table; a mentioned row ends at its non-empty new value, or absent when the
new value is empty; unmentioned tables and rows are unchanged. -/
theorem populateCache_update_spec (U : TableUpdates) (c : Cache)
    (hU : (U.map Prod.fst).Nodup)
    (hrows : ∀ p ∈ U, ((p.2 : TableUpdate).map Prod.fst).Nodup) :
    (∀ t, t ∈ U.map Prod.fst → populateCache U c t ≠ none) ∧
    (∀ t tu r ru, (t, tu) ∈ U → (r, ru) ∈ tu →
      cacheGet (populateCache U c) t r =
        (if ru.new ≠ ([] : Row) then some ru.new else none)) ∧
    (∀ t, t ∉ U.map Prod.fst → populateCache U c t = c t) ∧
    (∀ t tu r, (t, tu) ∈ U → r ∉ tu.map Prod.fst →
      cacheGet (populateCache U c) t r = cacheGet c t r) := by
  refine ⟨?_, ?_, ?_, ?_⟩
  · intro t ht
    rw [populateCache_apply U c t hU]
    cases hl : lookupTU U t with
    | some tu => simp
    | none => exact absurd ht ((lookupTU_eq_none U t).mp hl)
  · intro t tu r ru hmemU hmemTu
    have htu : lookupTU U t = some tu := lookupTU_mem U t tu hmemU hU
    simp only [cacheGet]
    rw [populateCache_apply U c t hU, htu]
    show applyTableUpdate ((c t).getD emptyTableMap) tu r = _
    rw [applyTableUpdate_apply,
      lastRowOp_mem tu r ru hmemTu (hrows (t, tu) hmemU)]
    rfl
  · intro t ht
    rw [populateCache_apply U c t hU, (lookupTU_eq_none U t).mpr ht]
  · intro t tu r hmemU hr
    have htu : lookupTU U t = some tu := lookupTU_mem U t tu hmemU hU
    simp only [cacheGet]
    rw [populateCache_apply U c t hU, htu]
    show applyTableUpdate ((c t).getD emptyTableMap) tu r = _
    rw [applyTableUpdate_apply, (lastRowOp_eq_none tu r).mpr hr]
    cases c t <;> rfl

/-- C4 witness at a concrete batch: an insert lands, a delete removes. -/
theorem populateCache_update_spec_witness :
    cacheGet
      (populateCache
        [("T", [("r1", (⟨[], [("f", "v")]⟩ : RowUpdate)),
                ("r2", (⟨[("f", "w")], []⟩ : RowUpdate))])]
        (fun _ => none))
      "T" "r1" = some [("f", "v")] := by
  have h := populateCache_update_spec
    [("T", [("r1", (⟨[], [("f", "v")]⟩ : RowUpdate)),
            ("r2", (⟨[("f", "w")], []⟩ : RowUpdate))])]
    (fun _ => none) (by decide) (by decide)
  have h2 := h.2.1 "T"
    [("r1", (⟨[], [("f", "v")]⟩ : RowUpdate)),
     ("r2", (⟨[("f", "w")], []⟩ : RowUpdate))]
    "r1" (⟨[], [("f", "v")]⟩ : RowUpdate) (by decide) (by decide)
  simpa using h2

/-- C5 (amended): applying the same update twice equals applying it once;
an empty-new delta for an absent row changes no row lookup, and leaves the
cache literally unchanged when the row's table sub-mapping already exists
(when the table is absent, an empty sub-mapping is created). -/
theorem populateCache_idem_spec (U : TableUpdates) (c : Cache)
    (hU : (U.map Prod.fst).Nodup) :
    populateCache U (populateCache U c) = populateCache U c ∧
    (∀ t r ru m, ru.new = ([] : Row) → c t = some m → m r = none →
      populateCache [(t, [(r, ru)])] c = c) ∧
    (∀ t r ru, ru.new = ([] : Row) → cacheGet c t r = none →
      ∀ t' r', cacheGet (populateCache [(t, [(r, ru)])] c) t' r' =
        cacheGet c t' r') := by
  refine ⟨?_, ?_, ?_⟩
  · funext t
    rw [populateCache_apply U (populateCache U c) t hU,
      populateCache_apply U c t hU]
    cases hl : lookupTU U t with
    | some tu =>
      simp only [Option.getD_some]
      rw [applyTableUpdate_idem]
    | none => rfl
  · intro t r ru m hnew hct hmr
    funext x
    show (if x = t then
        some (applyTableUpdate ((c t).getD emptyTableMap) [(r, ru)])
      else c x) = c x
    by_cases hx : x = t
    · subst hx
      rw [if_pos rfl, hct]
      simp only [Option.getD_some]
      have hA : applyTableUpdate m [(r, ru)] = m := by
        funext k
        show applyRowUpdate m r ru k = m k
        rw [applyRowUpdate_apply]
        by_cases hk : k = r
        · subst hk
          rw [if_pos rfl]
          simp [rowVal, hnew, hmr]
        · rw [if_neg hk]
      rw [hA]
    · rw [if_neg hx]
  · intro t r ru hnew hcg t' r'
    simp only [cacheGet] at hcg ⊢
    show ((if t' = t then
        some (applyTableUpdate ((c t).getD emptyTableMap) [(r, ru)])
      else c t').bind fun m => m r') = (c t').bind fun m => m r'
    by_cases ht' : t' = t
    · subst ht'
      rw [if_pos rfl]
      show applyRowUpdate ((c t').getD emptyTableMap) r ru r' = _
      rw [applyRowUpdate_apply]
      by_cases hr' : r' = r
      · subst hr'
        rw [if_pos rfl]
        simp only [rowVal, hnew, ne_eq, not_true_eq_false, if_false]
        exact hcg.symm
      · rw [if_neg hr']
        cases c t' <;> rfl
    · rw [if_neg ht']

/-- C5 witness: idempotence at a concrete update and cache. -/
theorem populateCache_idem_witness :
    populateCache [("T", [("r", (⟨[], [("f", "v")]⟩ : RowUpdate))])]
      (populateCache [("T", [("r", (⟨[], [("f", "v")]⟩ : RowUpdate))])]
        (fun _ => none)) =
    populateCache [("T", [("r", (⟨[], [("f", "v")]⟩ : RowUpdate))])]
      (fun _ => none) :=
  (populateCache_idem_spec
    [("T", [("r", (⟨[], [("f", "v")]⟩ : RowUpdate))])]
    (fun _ => none) (by decide)).1

/-- C5 (counterexample): an update whose only row delta has an empty new
value, applied to a cache lacking that table, is not a no-op — the empty
sub-mapping for the table is created. -/
theorem populateCache_empty_delete_not_identity :
    populateCache [("T", [("r", (⟨[], []⟩ : RowUpdate))])] (fun _ => none) ≠
      (fun _ => none) := by
  intro h
  have h2 := congrFun h "T"
  simp [populateCache, List.foldl] at h2

/-- C6: applying update batch U1 then U2 equals applying the single batch
in which U2's per-row entries override U1's (later writes win; a deletion
in U2 removes the row regardless of U1's delta). -/
theorem populateCache_merge (U1 U2 : TableUpdates) (c : Cache)
    (h1 : (U1.map Prod.fst).Nodup) (h2 : (U2.map Prod.fst).Nodup) :
    populateCache U2 (populateCache U1 c) =
      populateCache (mergeUpdates U1 U2) c := by
  funext t
  have hm := mergeUpdates_keys_nodup U1 U2 h1 h2
  rw [populateCache_apply U2 (populateCache U1 c) t h2,
    populateCache_apply (mergeUpdates U1 U2) c t hm, lookupTU_mergeUpdates,
    populateCache_apply U1 c t h1]
  cases hl1 : lookupTU U1 t with
  | some tu1 =>
    cases hl2 : lookupTU U2 t with
    | some tu2 =>
      simp only [Option.getD_some]
      rw [applyTableUpdate_mergeTU]
    | none => rfl
  | none =>
    cases hl2 : lookupTU U2 t with
    | some tu2 => rfl
    | none => rfl

/-- C6 witness: a concrete write in U1 overridden by a delete in U2. -/
theorem populateCache_merge_witness :
    populateCache [("T", [("r", (⟨[], []⟩ : RowUpdate))])]
      (populateCache [("T", [("r", (⟨[("f", "o")], [("f", "v")]⟩ : RowUpdate))])]
        (fun _ => none)) =
    populateCache
      (mergeUpdates
        [("T", [("r", (⟨[("f", "o")], [("f", "v")]⟩ : RowUpdate))])]
        [("T", [("r", (⟨[], []⟩ : RowUpdate))])])
      (fun _ => none) :=
  populateCache_merge
    [("T", [("r", (⟨[("f", "o")], [("f", "v")]⟩ : RowUpdate))])]
    [("T", [("r", (⟨[], []⟩ : RowUpdate))])]
    (fun _ => none) (by decide) (by decide)

/-- C1: for a transaction reply whose mutate entry carries a non-empty
error, `createOvsInternalPort` (OVSDB path, connection succeeded) still
returns the candidate name with a nil error, although the validator inside
`addInternalPort` did mark the transaction failed: the failure is logged,
not surfaced. -/
theorem createOvsInternalPort_swallows_transaction_failure :
    (createOvsInternalPort "veth" "br0" (fun _ => 'a') none
        [{}, {}, { error := "constraint violation", details := "duplicate name" }]).1.2
      = none ∧
    (addInternalPort "br0"
        (createOvsInternalPort "veth" "br0" (fun _ => 'a') none
          [{}, {}, { error := "constraint violation", details := "duplicate name" }]).1.1
        [{}, {}, { error := "constraint violation", details := "duplicate name" }]).ok
      = false :=
  ⟨rfl, rfl⟩

/-- C2 (amended): the validator accepts a reply exactly when every entry of
the reply carries an empty error (at any index); a reply shorter than the
operation list only raises the logged length warning and is otherwise
accepted. -/
theorem addInternalPort_validator_spec (bridge port : String)
    (reply : List OperationResult) :
    ((addInternalPort bridge port reply).ok = true ↔
      ∀ o ∈ reply, o.error = "") ∧
    ((addInternalPort bridge port reply).lengthWarning = true ↔
      reply.length < (addInternalPortOps bridge port).length) := by
  constructor
  · show (List.foldl (fun acc o => if o.error ≠ "" then false else acc)
      true reply = true) ↔ _
    rw [validateFold_eq_true reply true]
    simp
  · simp [addInternalPort, addInternalPortOps]

/-- C2 (counterexample): a two-entry reply to the three-operation
transaction, every present entry error-free, is accepted as success (the
length check only warns). -/
theorem addInternalPort_accepts_short_reply :
    (addInternalPort "br0" "veth0" [{}, {}]).ok = true ∧
    ([({} : OperationResult), {}].length <
      (addInternalPortOps "br0" "veth0").length) ∧
    (addInternalPort "br0" "veth0" [{}, {}]).lengthWarning = true :=
  ⟨rfl, by decide, rfl⟩

/-- C3: a full-length reply with no errors whose Bridge-mutate entry
reports zero affected rows is accepted as a success (`ok` stays true and
the success message is printed); the affected-row count is never
consulted. -/
theorem addInternalPort_accepts_zero_row_mutate :
    (addInternalPort "br0" "veth0"
        [{ uuid := "aaaa" }, { uuid := "bbbb" }, { count := 0 }]).ok = true ∧
    (addInternalPort "br0" "veth0"
        [{ uuid := "aaaa" }, { uuid := "bbbb" }, { count := 0 }]).successUuid
      = some "bbbb" ∧
    ([{ uuid := "aaaa" }, { uuid := "bbbb" },
        ({ count := 0 } : OperationResult)].get? 2).map OperationResult.count
      = some 0 :=
  ⟨rfl, rfl, rfl⟩

/-- On the success path (`ok` true) the printed identifier is read from
`reply[1]`. -/
theorem addInternalPort_successUuid (bridge port : String)
    (reply : List OperationResult)
    (hok : (addInternalPort bridge port reply).ok = true) :
    (addInternalPort bridge port reply).successUuid =
      (reply.get? 1).map (fun o => o.uuid) := by
  simp only [addInternalPort] at hok ⊢
  rw [hok]
  simp

/-- C10: the validator accepts the one-entry error-free reply, which has
fewer than two entries, and the success path's `reply[1]` access is then
out of range (`none` models the index-out-of-range panic); with at least
two entries the access is in range. -/
theorem addInternalPort_success_reads_reply_out_of_range :
    (addInternalPort "br0" "veth0" [{}]).ok = true ∧
    ([({} : OperationResult)].length < 2) ∧
    ([({} : OperationResult)].get? 1 = none) ∧
    (∀ bridge port reply, 2 ≤ reply.length →
      (addInternalPort bridge port reply).ok = true →
      ((addInternalPort bridge port reply).successUuid).isSome = true) := by
  refine ⟨rfl, by decide, rfl, ?_⟩
  intro bridge port reply hlen hok
  rw [addInternalPort_successUuid bridge port reply hok]
  rcases reply with _ | ⟨a, _ | ⟨b, rest⟩⟩
  · simp at hlen
  · simp at hlen
  · rfl

/-! ## Name shape and the Create sequence -/

/-- Whatever the connection outcome and reply, the name component of
`createOvsInternalPort`'s return value is the generated candidate. -/
theorem createOvsInternalPort_name (prefix_ bridge : String)
    (rand : Nat → Char) (connectErr : Option String)
    (reply : List OperationResult) :
    (createOvsInternalPort prefix_ bridge rand connectErr reply).1.1 =
      GenerateRandomName prefix_ 7 rand := by
  cases connectErr <;> rfl

/-- The generated name is the prefix followed by exactly `n` characters. -/
theorem GenerateRandomName_shape (prefix_ : String) (n : Nat)
    (rand : Nat → Char) :
    ∃ s : String,
      GenerateRandomName prefix_ n rand = prefix_ ++ s ∧ s.length = n := by
  refine ⟨String.mk ((List.range n).map rand), rfl, ?_⟩
  show ((List.range n).map rand).length = n
  simp

/-- C7: a successful `createOvsInternalPort` — on the OVSDB path and on the
CLI path — returns the prefix followed by exactly 7 generated
characters. -/
theorem createOvsInternalPort_name_shape (prefix_ bridge : String)
    (rand : Nat → Char) (connectErr cmdErr : Option String)
    (reply : List OperationResult) :
    ((createOvsInternalPort prefix_ bridge rand connectErr reply).1.2 = none →
      ∃ s : String,
        (createOvsInternalPort prefix_ bridge rand connectErr reply).1.1 =
          prefix_ ++ s ∧ s.length = 7) ∧
    ((createOvsInternalPortCli prefix_ bridge rand cmdErr).2 = none →
      ∃ s : String,
        (createOvsInternalPortCli prefix_ bridge rand cmdErr).1 =
          prefix_ ++ s ∧ s.length = 7) := by
  constructor
  · intro _
    rw [createOvsInternalPort_name]
    exact GenerateRandomName_shape prefix_ 7 rand
  · intro _
    have hn : (createOvsInternalPortCli prefix_ bridge rand cmdErr).1 =
        GenerateRandomName prefix_ 7 rand := by cases cmdErr <;> rfl
    rw [hn]
    exact GenerateRandomName_shape prefix_ 7 rand

/-- Reduction of the returned pair when the connection succeeds. -/
theorem createOvsInternalPort_fst_none (prefix_ bridge : String)
    (rand : Nat → Char) (reply : List OperationResult) :
    (createOvsInternalPort prefix_ bridge rand none reply).1 =
      (GenerateRandomName prefix_ 7 rand, none) := rfl

/-- Reduction of the returned pair when the connection fails. -/
theorem createOvsInternalPort_fst_some (prefix_ bridge : String)
    (rand : Nat → Char) (e : String) (reply : List OperationResult) :
    (createOvsInternalPort prefix_ bridge rand (some e) reply).1 =
      (GenerateRandomName prefix_ 7 rand, some e) := rfl

/-- C8: after port creation, `Ovs.Create` issues exactly set-MTU, up, move
into the namespace, in that order; on success the shared state records the
port name; on any error the state is unchanged; no step runs after a
failed one; and the error is nil whenever the guards pass, port creation
succeeds and each of the three steps succeeds. -/
theorem ovsCreate_spec (n : Network) (nspid : Int) (ns : NetworkState)
    (env : DevEnv) (rand : Nat → Char) (connectErr : Option String)
    (reply : List OperationResult) :
    ((ovsCreate n nspid ns env rand connectErr reply).2.2 = none →
      (ovsCreate n nspid ns env rand connectErr reply).1 =
        [DevOp.setMtu (GenerateRandomName n.vethPrefix 7 rand) n.mtu,
         DevOp.interfaceUp (GenerateRandomName n.vethPrefix 7 rand),
         DevOp.setNsPid (GenerateRandomName n.vethPrefix 7 rand) nspid] ∧
      (ovsCreate n nspid ns env rand connectErr reply).2.1 =
        { ovsPort := GenerateRandomName n.vethPrefix 7 rand } ∧
      env (DevOp.setMtu (GenerateRandomName n.vethPrefix 7 rand) n.mtu)
        = none ∧
      env (DevOp.interfaceUp (GenerateRandomName n.vethPrefix 7 rand))
        = none ∧
      env (DevOp.setNsPid (GenerateRandomName n.vethPrefix 7 rand) nspid)
        = none) ∧
    ((ovsCreate n nspid ns env rand connectErr reply).2.2 ≠ none →
      (ovsCreate n nspid ns env rand connectErr reply).2.1 = ns) ∧
    (∀ op ∈ (ovsCreate n nspid ns env rand connectErr reply).1.dropLast,
      env op = none) ∧
    (n.bridge ≠ "" → n.vethPrefix ≠ "" →
      (createOvsInternalPort n.vethPrefix n.bridge rand connectErr reply).1.2
        = none →
      env (DevOp.setMtu (GenerateRandomName n.vethPrefix 7 rand) n.mtu)
        = none →
      env (DevOp.interfaceUp (GenerateRandomName n.vethPrefix 7 rand))
        = none →
      env (DevOp.setNsPid (GenerateRandomName n.vethPrefix 7 rand) nspid)
        = none →
      (ovsCreate n nspid ns env rand connectErr reply).2.2 = none) := by
  by_cases hb : n.bridge = ""
  · refine ⟨?_, ?_, ?_, ?_⟩ <;> simp [ovsCreate, hb]
  by_cases hp : n.vethPrefix = ""
  · refine ⟨?_, ?_, ?_, ?_⟩ <;> simp [ovsCreate, hb, hp]
  cases connectErr with
  | some e =>
    refine ⟨?_, ?_, ?_, ?_⟩ <;>
      simp [ovsCreate, createOvsInternalPort_fst_some, hb, hp]
  | none =>
    cases h1 : env (DevOp.setMtu (GenerateRandomName n.vethPrefix 7 rand) n.mtu) with
    | some e1 =>
      refine ⟨?_, ?_, ?_, ?_⟩ <;>
        simp [ovsCreate, createOvsInternalPort_fst_none, hb, hp, h1]
    | none =>
      cases h2 : env (DevOp.interfaceUp (GenerateRandomName n.vethPrefix 7 rand)) with
      | some e2 =>
        refine ⟨?_, ?_, ?_, ?_⟩ <;>
          simp [ovsCreate, createOvsInternalPort_fst_none, hb, hp, h1, h2]
      | none =>
        cases h3 : env (DevOp.setNsPid (GenerateRandomName n.vethPrefix 7 rand) nspid) with
        | some e3 =>
          refine ⟨?_, ?_, ?_, ?_⟩ <;>
            simp [ovsCreate, createOvsInternalPort_fst_none, hb, hp, h1, h2, h3]
        | none =>
          refine ⟨?_, ?_, ?_, ?_⟩ <;>
            simp [ovsCreate, createOvsInternalPort_fst_none, hb, hp, h1, h2, h3]

/-! ## The Initialize sequence -/

theorem runSteps_cons_some (env : DevEnv) (op0 : DevOp)
    (wrap : String → String) (rest : List InitStep) (e : String)
    (he : env op0 = some e) :
    runSteps env ((op0, wrap) :: rest) = ([op0], some (wrap e)) := by
  simp [runSteps, he]

theorem runSteps_cons_none (env : DevEnv) (op0 : DevOp)
    (wrap : String → String) (rest : List InitStep) (he : env op0 = none) :
    runSteps env ((op0, wrap) :: rest) =
      (op0 :: (runSteps env rest).1, (runSteps env rest).2) := by
  simp [runSteps, he]

/-- Every issued operation but possibly the last succeeded: the sequence is
fail-fast. -/
theorem runSteps_dropLast (env : DevEnv) :
    ∀ steps : List InitStep,
      ∀ op ∈ (runSteps env steps).1.dropLast, env op = none := by
  intro steps
  induction steps with
  | nil => intro op h; simp [runSteps] at h
  | cons s rest ih =>
    obtain ⟨op0, wrap⟩ := s
    intro op h
    cases he : env op0 with
    | some e => rw [runSteps_cons_some env op0 wrap rest e he] at h; simp at h
    | none =>
      rw [runSteps_cons_none env op0 wrap rest he] at h
      rcases htr : (runSteps env rest).1 with _ | ⟨x, xs⟩
      · rw [htr] at h; simp at h
      · rw [htr] at h
        simp only [List.dropLast] at h
        rcases List.mem_cons.mp h with rfl | hm
        · exact he
        · exact ih op (by rw [htr]; exact hm)

/-- A failing run ends at the failing operation and returns that
operation's wrapped error. -/
theorem runSteps_failure (env : DevEnv) :
    ∀ (steps : List InitStep) (e : String), (runSteps env steps).2 = some e →
      ∃ op err wrap, (runSteps env steps).1.getLast? = some op ∧
        env op = some err ∧ (op, wrap) ∈ steps ∧ e = wrap err := by
  intro steps
  induction steps with
  | nil => intro e h; simp [runSteps] at h
  | cons s rest ih =>
    obtain ⟨op0, wrap0⟩ := s
    intro e h
    cases he : env op0 with
    | some err =>
      rw [runSteps_cons_some env op0 wrap0 rest err he] at h ⊢
      refine ⟨op0, err, wrap0, rfl, he, List.mem_cons_self _ _, ?_⟩
      exact (Option.some.inj h).symm
    | none =>
      rw [runSteps_cons_none env op0 wrap0 rest he] at h ⊢
      obtain ⟨op, err, wrap, hlast, henv, hmem, hE⟩ := ih e h
      refine ⟨op, err, wrap, ?_, henv, List.mem_cons_of_mem _ hmem, hE⟩
      rcases htr : (runSteps env rest).1 with _ | ⟨x, xs⟩
      · rw [htr] at hlast; simp at hlast
      · rw [htr] at hlast
        rw [List.getLast?_cons_cons]
        exact hlast

/-- C9 (amended): with MAC, address and gateway configured (no IPv6), the
steps are exactly down, rename, set-MAC, set-address, set-MTU, up,
set-gateway in order; omitting MAC and gateway skips exactly those two
steps; a failed step aborts the run; and a failure surfaces as that step's
wrapped Go error message (which names the step and device — the rename,
MTU and gateway wrappers also carry the target value, while the set-MAC
and set-address wrappers do not). -/
theorem ovsInitialize_order_spec :
    (∀ (p mac addr gw : String) (mtu : Int) (env : DevEnv),
      p ≠ "" → mac ≠ "" → gw ≠ "" → (∀ op, env op = none) →
      ovsInitialize
        { macAddress := mac, address := addr, gateway := gw, mtu := mtu }
        { ovsPort := p } env =
        ([DevOp.interfaceDown p, DevOp.changeName p defaultDevice,
          DevOp.setMac defaultDevice mac, DevOp.setIp defaultDevice addr,
          DevOp.setMtu defaultDevice mtu, DevOp.interfaceUp defaultDevice,
          DevOp.setGateway gw defaultDevice], none)) ∧
    (∀ (p addr : String) (mtu : Int) (env : DevEnv),
      p ≠ "" → (∀ op, env op = none) →
      ovsInitialize { address := addr, mtu := mtu } { ovsPort := p } env =
        ([DevOp.interfaceDown p, DevOp.changeName p defaultDevice,
          DevOp.setIp defaultDevice addr, DevOp.setMtu defaultDevice mtu,
          DevOp.interfaceUp defaultDevice], none)) ∧
    (∀ (config : Network) (ns : NetworkState) (env : DevEnv),
      ∀ op ∈ (ovsInitialize config ns env).1.dropLast, env op = none) ∧
    (∀ (config : Network) (ns : NetworkState) (env : DevEnv) (e : String),
      (ovsInitialize config ns env).2 = some e →
      (e = "ovsPort is not specified" ∧ (ovsInitialize config ns env).1 = []) ∨
      ∃ op err wrap, (ovsInitialize config ns env).1.getLast? = some op ∧
        env op = some err ∧ (op, wrap) ∈ initSteps config ns.ovsPort ∧
        e = wrap err) := by
  refine ⟨?_, ?_, ?_, ?_⟩
  · intro p mac addr gw mtu env hp hmac hgw henv
    simp [ovsInitialize, initSteps, runSteps, hp, hmac, hgw, henv]
  · intro p addr mtu env hp henv
    simp [ovsInitialize, initSteps, runSteps, hp, henv]
  · intro config ns env op h
    by_cases hns : ns.ovsPort = ""
    · simp [ovsInitialize, hns] at h
    · exact runSteps_dropLast env _ op
        (by simpa [ovsInitialize, hns] using h)
  · intro config ns env e h
    by_cases hns : ns.ovsPort = ""
    · left
      simp [ovsInitialize, hns] at h ⊢
      exact h.symm
    · right
      rw [ovsInitialize, if_neg hns] at h ⊢
      exact runSteps_failure env (initSteps config ns.ovsPort) e h

/-- C9 (counterexample): a failing set-MAC step aborts the sequence with
`"set eth0 mac boom"` — an error that names the step and the device but
not the configured MAC value, contradicting "an error naming the step,
device, and target value". -/
theorem ovsInitialize_mac_error_names_no_value :
    (ovsInitialize
      { macAddress := "aa:bb:cc:dd:ee:ff", address := "10.0.0.5/24",
        gateway := "10.0.0.1", mtu := 1500 }
      { ovsPort := "veth1abcdef" }
      (fun op => match op with
        | DevOp.setMac _ _ => some "boom"
        | _ => none)).2 = some "set eth0 mac boom" ∧
    strContains "set eth0 mac boom" "aa:bb:cc:dd:ee:ff" = false ∧
    (ovsInitialize
      { macAddress := "aa:bb:cc:dd:ee:ff", address := "10.0.0.5/24",
        gateway := "10.0.0.1", mtu := 1500 }
      { ovsPort := "veth1abcdef" }
      (fun op => match op with
        | DevOp.setMac _ _ => some "boom"
        | _ => none)).1 =
      [DevOp.interfaceDown "veth1abcdef",
       DevOp.changeName "veth1abcdef" defaultDevice,
       DevOp.setMac defaultDevice "aa:bb:cc:dd:ee:ff"] := by
  refine ⟨by decide, by decide, by decide⟩

end OvsNet
